import Mathlib

set_option maxHeartbeats 1000000

/-
Verification of the ses-forwarder message pipeline: validation gate,
header rewriter, forward orchestrator and option loading.

The Go sources are shallowly embedded.  External collaborators (the Go
standard library mail parsers, the S3 object store, the SES send/bounce
clients, the system clock) are modelled as explicit function parameters
collected in `Env`; repository code is translated directly.  The
`headerBuffer` carries a ghost `emitted` log recording each
`writeHeader` call (name after canonical respelling, values) next to
the real output string, so ordering facts can be stated; the real byte
output is the `out` field.  The underlying writer is modelled by
`wf : Nat → Option String` giving the result of the n-th underlying
write call (`none` = success); `bytes.Buffer` corresponds to
`neverFails`.
-/

namespace SesForwarder

/-! ## String helpers (Go strings.Replace with n = 1) -/

def listReplaceFirst (old new : List Char) : List Char → List Char
  | [] => []
  | c :: rest =>
    if old.isPrefixOf (c :: rest) then new ++ (c :: rest).drop old.length
    else c :: listReplaceFirst old new rest

/-- Model of Go `strings.Replace(s, old, new, 1)`: replace the first
occurrence of `old` in `s` by `new`. -/
def replaceFirst (s old new : String) : String :=
  ⟨listReplaceFirst old.data new.data s.data⟩

/-- Concatenation of a list of strings (our own join, for easy lemmas). -/
def strJoin : List String → String
  | [] => ""
  | s :: rest => s ++ strJoin rest

/-- Model of Go `strings.ToUpper`: character-wise uppercasing (the
verdict strings compared with it are plain ASCII). -/
def strToUpper (s : String) : String := ⟨s.data.map Char.toUpper⟩

/-! ## net/textproto canonical MIME header keys

Models `textproto.CanonicalMIMEHeaderKey`, which the Go `net/mail`
parser applies to every header key it stores, so a differently cased
input key such as `MIME-VERSION` is stored as `Mime-Version`. -/

def validHeaderFieldByte (c : Char) : Bool :=
  decide ((97 ≤ c.toNat ∧ c.toNat ≤ 122) ∨ (65 ≤ c.toNat ∧ c.toNat ≤ 90) ∨
    (48 ≤ c.toNat ∧ c.toNat ≤ 57) ∨
    c.toNat ∈ [33, 35, 36, 37, 38, 39, 42, 43, 45, 46, 94, 95, 96, 124, 126])

def upcaseChar (c : Char) : Char :=
  if 97 ≤ c.toNat ∧ c.toNat ≤ 122 then Char.ofNat (c.toNat - 32) else c

def downcaseChar (c : Char) : Char :=
  if 65 ≤ c.toNat ∧ c.toNat ≤ 90 then Char.ofNat (c.toNat + 32) else c

def canonChars : Bool → List Char → List Char
  | _, [] => []
  | upper, c :: rest =>
    let c2 := if upper then upcaseChar c else downcaseChar c
    c2 :: canonChars (c2 = '-') rest

def canonicalMIMEHeaderKey (s : String) : String :=
  if s.data.all validHeaderFieldByte then ⟨canonChars true s.data⟩ else s

/-! ## Parsed headers (Go mail.Header / textproto.MIMEHeader)

A parsed message header block is the list of its (key, value) pairs in
arrival order.  The Go parser stores them in a map keyed by the
canonical MIME key, each key mapping to its values in arrival order;
`headerValues` is indexing that map with an (already canonical) key and
`headersGet` is `mail.Header.Get`, which canonicalises the query key
and returns the first value, or the empty string. -/

abbrev Headers := List (String × String)

def headerValues (hs : Headers) (key : String) : List String :=
  (hs.filter (fun p => canonicalMIMEHeaderKey p.fst == key)).map Prod.snd

def headersGet (hs : Headers) (key : String) : String :=
  match headerValues hs (canonicalMIMEHeaderKey key) with
  | [] => ""
  | v :: _ => v

/-! ## header_buffer.go -/

/-- Result of Go `mail.ParseAddress`: a display name and an address. -/
structure EmailAddress where
  name : String
  address : String
  deriving DecidableEq

/-- `newFromAddress` from header_buffer.go, with `mail.ParseAddress`
abstracted as the `parse` parameter. -/
def newFromAddress (parse : String → Except String EmailAddress)
    (origFrom newFrom : String) : Except String String :=
  match parse origFrom with
  | .error e =>
    .error ("couldn\x27t parse From address " ++ origFrom ++ ": " ++ e)
  | .ok addr =>
    let name := if addr.name != "" then addr.name ++ " - " else addr.name
    .ok (name ++ replaceFirst addr.address "@" " at " ++ " <" ++ newFrom ++ ">")

/-- State of the `headerBuffer`: accumulated output bytes, number of
underlying write calls performed, the sticky first error, and a ghost
log of the `writeHeader` calls performed (respelled name, values). -/
structure HBState where
  out : String
  calls : Nat
  err : Option String
  emitted : List (String × List String)
  deriving DecidableEq

/-- A writer whose every underlying write succeeds (`bytes.Buffer`). -/
def neverFails : Nat → Option String := fun _ => none

/-- `headerBuffer.write`: perform an underlying write only while no
previous write has failed; record the first failure in `err`. -/
def write (wf : Nat → Option String) (hb : HBState) (s : String) : HBState :=
  match hb.err with
  | some _ => hb
  | none =>
    match wf hb.calls with
    | none => { hb with out := hb.out ++ s, calls := hb.calls + 1 }
    | some e => { hb with err := some e, calls := hb.calls + 1 }

/-- The respelling step at the top of `writeHeader`: always emit the
canonical `MIME-Version` spelling (the parser stores the key as
`Mime-Version`). -/
def spellName (name : String) : String :=
  if name == "Mime-Version" then "MIME-Version" else name

/-- `headerBuffer.writeHeader`: always emit the canonical MIME-Version
spelling, then write one line per value.  The ghost `emitted` log
records the call. -/
def writeHeader (wf : Nat → Option String) (hb : HBState)
    (name : String) (values : List String) : HBState :=
  let name := spellName name
  let hb := { hb with emitted := hb.emitted ++ [(name, values)] }
  values.foldl (fun st v => write wf st (name ++ ": " ++ v ++ "\r\n")) hb

/-- `headerBuffer.writeFromAndReplyTo`. -/
def writeFromAndReplyTo (parse : String → Except String EmailAddress)
    (wf : Nat → Option String) (hb : HBState)
    (headers : Headers) (sender : String) : HBState :=
  let origFrom := headersGet headers "From"
  let replyTo := headersGet headers "Reply-To"
  match newFromAddress parse origFrom sender with
  | .error e => { hb with err := some e }
  | .ok newFrom =>
    let hb := { hb with err := none }
    let hb := writeHeader wf hb "From" [newFrom]
    let replyTo := if replyTo == "" then origFrom else replyTo
    writeHeader wf hb "Reply-To" [replyTo]

/-- The fixed allow-list iterated by `WriteUpdatedHeaders` (order matters). -/
def keepHeaders : List String :=
  ["To", "Cc", "Bcc", "Subject", "Mime-Version", "Content-Type"]

def origLinkHeaderPfx : String := "X-SES-Forwarder-Original: s3://"

structure UpdateHeadersInput where
  headers : Headers
  senderAddress : String
  msgPath : String

/-- The `for _, header := range keepHeaders` loop of
`WriteUpdatedHeaders`: look each allow-listed name up in the parsed
headers and emit it when present. -/
def writeKeepHeaders (wf : Nat → Option String) (hs : Headers)
    (names : List String) (hb : HBState) : HBState :=
  match names with
  | [] => hb
  | h :: rest =>
    match headerValues hs h with
    | [] => writeKeepHeaders wf hs rest hb
    | values => writeKeepHeaders wf hs rest (writeHeader wf hb h values)

/-- The body of `headerBuffer.WriteUpdatedHeaders` before the final
error check: rewrite From/Reply-To, copy the allow-listed headers in
fixed order, append the provenance header plus the blank separator
line. -/
def runUpdatedHeaders (parse : String → Except String EmailAddress)
    (wf : Nat → Option String) (input : UpdateHeadersInput) : HBState :=
  let hb : HBState := { out := "", calls := 0, err := none, emitted := [] }
  let hb := writeFromAndReplyTo parse wf hb input.headers input.senderAddress
  let hb := writeKeepHeaders wf input.headers keepHeaders hb
  write wf hb (origLinkHeaderPfx ++ input.msgPath ++ "\r\n\r\n")

/-- `headerBuffer.WriteUpdatedHeaders`: run the rewrite, then wrap any
sticky error.  Returns the final buffer state together with the error
result. -/
def WriteUpdatedHeaders (parse : String → Except String EmailAddress)
    (wf : Nat → Option String) (input : UpdateHeadersInput) :
    HBState × Except String Unit :=
  let hb := runUpdatedHeaders parse wf input
  match hb.err with
  | some e => (hb, .error ("error updating email headers: " ++ e))
  | none => (hb, .ok ())

/-! ## options.go

The snapshot mixes two commits: the loader file declares the five
settings below, while the handler additionally reads
`Options.EmailDomainName` (present in the test fixtures).  `Options`
carries the union of the fields; the embedded loader assigns exactly
the five settings of the cited loader version, leaving
`emailDomainName` at the Go zero value. -/

structure Options where
  bucketName : String
  incomingPfx : String
  emailDomainName : String
  senderAddress : String
  forwardingAddress : String
  configurationSet : String
  deriving DecidableEq

def undefinedEnvVarsErrorMessage (vars : List String) : String :=
  "undefined environment variables: " ++ String.intercalate ", " vars

/-- `environment.assign`: returns the assigned field value and the
updated list of undefined variable names. -/
def assign (getenv : String → String) (undefinedVars : List String)
    (varname : String) : String × List String :=
  let value := getenv varname
  if value == "" then ("", undefinedVars ++ [varname]) else (value, undefinedVars)

/-- The environment variable names `environment.options` resolves, in
assignment order. -/
def optionNames : List String :=
  ["BUCKET_NAME", "INCOMING_PREFIX", "SENDER_ADDRESS", "FORWARDING_ADDRESS",
    "CONFIGURATION_SET"]

/-- `environment.options` / `GetOptions`: resolve every setting, then
fail with the collected list of undefined names, or succeed. -/
def options (getenv : String → String) : Except (List String) Options :=
  let (bucketName, u1) := assign getenv [] "BUCKET_NAME"
  let (incomingPfx, u2) := assign getenv u1 "INCOMING_PREFIX"
  let (senderAddress, u3) := assign getenv u2 "SENDER_ADDRESS"
  let (forwardingAddress, u4) := assign getenv u3 "FORWARDING_ADDRESS"
  let (configurationSet, u5) := assign getenv u4 "CONFIGURATION_SET"
  if u5.length != 0 then .error u5
  else
    .ok { bucketName := bucketName, incomingPfx := incomingPfx,
          emailDomainName := "", senderAddress := senderAddress,
          forwardingAddress := forwardingAddress,
          configurationSet := configurationSet }

def GetOptions (getenv : String → String) : Except (List String) Options :=
  options getenv

/-! ## handler.go data model (AWS event and SES bounce types) -/

structure SimpleEmailVerdict where
  status : String
  deriving DecidableEq

structure SimpleEmailReceipt where
  recipients : List String
  spfVerdict : SimpleEmailVerdict
  dkimVerdict : SimpleEmailVerdict
  spamVerdict : SimpleEmailVerdict
  virusVerdict : SimpleEmailVerdict
  dmarcVerdict : SimpleEmailVerdict
  dmarcPolicy : String
  deriving DecidableEq

structure SimpleEmailMessage where
  messageID : String
  deriving DecidableEq

structure SimpleEmailService where
  mail : SimpleEmailMessage
  receipt : SimpleEmailReceipt
  deriving DecidableEq

structure SimpleEmailEvent where
  records : List SimpleEmailService
  deriving DecidableEq

inductive SimpleEmailDisposition where
  | stopRuleSet
  deriving DecidableEq

/-- `types.BounceTypeContentRejected`. -/
def bounceTypeContentRejected : String := "ContentRejected"

structure BouncedRecipientInfo where
  recipient : String
  bounceType : String
  deriving DecidableEq

structure SendBounceInput where
  bounceSender : String
  originalMessageId : String
  reportingMta : String
  arrivalDate : Nat
  explanation : String
  bouncedRecipientInfoList : List BouncedRecipientInfo
  deriving DecidableEq

/-- `time.Now().Truncate(time.Second)` on a clock reading in
nanoseconds. -/
def truncateSeconds (now : Nat) : Nat := now / 1000000000 * 1000000000

/-- External collaborators of one invocation: the stdlib message and
address parsers and the S3 / SES clients, each as a pure function. -/
structure Env where
  parseMessage : String → Except String (Headers × String)
  parseAddress : String → Except String EmailAddress
  getObject : String → String → Except String String
  sendEmail : List String → String → String → Except String String
  sendBounce : SendBounceInput → Except String String

/-! ## handler.go functions -/

/-- `isSpam`. -/
def isSpam (info : SimpleEmailService) : Bool :=
  strToUpper info.receipt.spfVerdict.status == "FAIL" ||
  strToUpper info.receipt.dkimVerdict.status == "FAIL" ||
  strToUpper info.receipt.spamVerdict.status == "FAIL" ||
  strToUpper info.receipt.virusVerdict.status == "FAIL"

/-- `bounceIfDmarcFails`: alongside the Go result (bounce message id or
error) the model returns the list of `SendBounce` requests issued. -/
def bounceIfDmarcFails (env : Env) (opts : Options) (now : Nat)
    (info : SimpleEmailService) : Except String String × List SendBounceInput :=
  let verdict := strToUpper info.receipt.dmarcVerdict.status
  let policy := strToUpper info.receipt.dmarcPolicy
  if verdict != "FAIL" || policy != "REJECT" then (.ok "", [])
  else
    let input : SendBounceInput :=
      { bounceSender := "mailer-daemon@" ++ opts.emailDomainName,
        originalMessageId := info.mail.messageID,
        reportingMta := "dns; " ++ opts.emailDomainName,
        arrivalDate := truncateSeconds now,
        explanation := "Unauthenticated email is not accepted due to " ++
          "the sending domain\x27s DMARC policy.",
        bouncedRecipientInfoList := info.receipt.recipients.map
          (fun r => { recipient := r, bounceType := bounceTypeContentRejected }) }
    match env.sendBounce input with
    | .error e => (.error ("DMARC bounce failed: " ++ e), [input])
    | .ok id => (.ok id, [input])

/-- `validateMessage`. -/
def validateMessage (env : Env) (opts : Options) (now : Nat)
    (info : SimpleEmailService) : Except String Unit × List SendBounceInput :=
  match bounceIfDmarcFails env opts now info with
  | (.error e, bs) => (.error e, bs)
  | (.ok bounceId, bs) =>
    if bounceId != "" then
      (.error ("DMARC bounced with bounce ID: " ++ bounceId), bs)
    else if isSpam info then (.error "marked as spam, ignoring", bs)
    else (.ok (), bs)

/-- `getOriginalMessage` (S3 fetch plus body read, both wrapped by the
same message). -/
def getOriginalMessage (env : Env) (opts : Options) (key : String) :
    Except String String :=
  match env.getObject opts.bucketName key with
  | .error e => .error ("failed to get original message: " ++ e)
  | .ok msg => .ok msg

/-- `updateMessage`: parse, rewrite headers into a fresh buffer
(`bytes.Buffer`, hence `neverFails`), then append the body. -/
def updateMessage (env : Env) (opts : Options) (msg key : String) :
    Except String String :=
  match env.parseMessage msg with
  | .error e => .error ("failed to parse message: " ++ e)
  | .ok (hs, body) =>
    let input : UpdateHeadersInput :=
      { headers := hs, senderAddress := opts.senderAddress,
        msgPath := opts.bucketName ++ "/" ++ key }
    match WriteUpdatedHeaders env.parseAddress neverFails input with
    | (_, .error e) => .error e
    | (hb, .ok _) => .ok (hb.out ++ body)

/-- `forwardMessage`. -/
def forwardMessage (env : Env) (opts : Options) (msg : String) :
    Except String String :=
  match env.sendEmail [opts.forwardingAddress] opts.configurationSet msg with
  | .error e => .error ("send failed: " ++ e)
  | .ok id => .ok id

/-- Per-record outcome: the log lines written for the record, the
bounce requests issued, and the raw messages submitted for sending. -/
structure ProcResult where
  logs : List String
  bounces : List SendBounceInput
  sends : List String
  deriving DecidableEq

/-- `processMessage`: the chained per-record pipeline; every failure is
caught and logged, never propagated. -/
def processMessage (env : Env) (opts : Options) (now : Nat)
    (info : SimpleEmailService) : ProcResult :=
  let key := opts.incomingPfx ++ "/" ++ info.mail.messageID
  let fwdLog := "forwarding message " ++ key
  let failLog := fun (e : String) =>
    "failed to forward message " ++ key ++ ": " ++ e
  match validateMessage env opts now info with
  | (.error e, bs) => { logs := [fwdLog, failLog e], bounces := bs, sends := [] }
  | (.ok _, bs) =>
    match getOriginalMessage env opts key with
    | .error e => { logs := [fwdLog, failLog e], bounces := bs, sends := [] }
    | .ok orig =>
      match updateMessage env opts orig key with
      | .error e => { logs := [fwdLog, failLog e], bounces := bs, sends := [] }
      | .ok updated =>
        match forwardMessage env opts updated with
        | .error e =>
          { logs := [fwdLog, failLog e], bounces := bs, sends := [updated] }
        | .ok fwdId =>
          { logs := [fwdLog,
              "successfully forwarded message " ++ key ++ " as " ++ fwdId],
            bounces := bs, sends := [updated] }

/-- `HandleEvent`: reject an empty batch, otherwise process every
record and report the stop-rule-set disposition.  (The Go error string
also interpolates the event value; the model keeps the fixed text.) -/
def HandleEvent (env : Env) (opts : Options) (now : Nat)
    (e : SimpleEmailEvent) :
    Except String SimpleEmailDisposition × List ProcResult :=
  if e.records.length == 0 then (.error "SES event contained no records", [])
  else (.ok .stopRuleSet, e.records.map (processMessage env opts now))

/-! ## Specification-side descriptions of the rewriter output

These definitions follow the wording of the specification (new From
value, new Reply-To value, fixed header order, provenance header last,
one blank line, body untouched); the theorems below relate them to the
embedded implementation. -/

/-- The new From value the specification prescribes. -/
def specFromValue (addr : EmailAddress) (sender : String) : String :=
  (if addr.name = "" then "" else addr.name ++ " - ") ++
    replaceFirst addr.address "@" " at " ++ " <" ++ sender ++ ">"

/-- The new Reply-To value the specification prescribes. -/
def specReplyToValue (hs : Headers) : String :=
  if headersGet hs "Reply-To" == "" then headersGet hs "From"
  else headersGet hs "Reply-To"

/-- The lines contributed by the allow-listed headers, in allow-list
order, one line per value, with the canonical MIME-Version spelling. -/
def keptLineList (hs : Headers) : List String → List String
  | [] => []
  | h :: rest =>
    (headerValues hs h).map (fun v => spellName h ++ ": " ++ v ++ "\r\n") ++
      keptLineList hs rest

/-- The `writeHeader` calls contributed by the allow-listed headers. -/
def keptEmittedList (hs : Headers) : List String → List (String × List String)
  | [] => []
  | h :: rest =>
    match headerValues hs h with
    | [] => keptEmittedList hs rest
    | values => (spellName h, values) :: keptEmittedList hs rest

/-- The names of the emitted headers, as the specification fixes them:
From, Reply-To, then exactly the allow-listed names that are present in
the input, in allow-list order and canonical spelling.  (The provenance
header follows in the byte output.) -/
def specEmittedNames (hs : Headers) : List String :=
  ["From", "Reply-To"] ++
    (keepHeaders.filter (fun h => !(headerValues hs h).isEmpty)).map spellName

/-- The full emitted header block as a list of lines, in the
specification order: From, Reply-To, allow-listed headers, provenance
header. -/
def specHeaderLines (addr : EmailAddress) (hs : Headers)
    (sender path : String) : List String :=
  ("From: " ++ specFromValue addr sender ++ "\r\n") ::
    ("Reply-To: " ++ specReplyToValue hs ++ "\r\n") ::
    (keptLineList hs keepHeaders ++ [origLinkHeaderPfx ++ path ++ "\r\n"])

/-- The `SendBounceInput` that `bounceIfDmarcFails` constructs when the
DMARC condition fires (used by helper lemmas). -/
def bounceInputOf (opts : Options) (now : Nat) (info : SimpleEmailService) :
    SendBounceInput :=
  { bounceSender := "mailer-daemon@" ++ opts.emailDomainName,
    originalMessageId := info.mail.messageID,
    reportingMta := "dns; " ++ opts.emailDomainName,
    arrivalDate := truncateSeconds now,
    explanation := "Unauthenticated email is not accepted due to " ++
      "the sending domain\x27s DMARC policy.",
    bouncedRecipientInfoList := info.receipt.recipients.map
      (fun r => { recipient := r, bounceType := bounceTypeContentRejected }) }

/-! ## Concrete fixtures

Executable instances of the external collaborators, used to evaluate
the theorems below at concrete inputs.  `parseAddrSimple` is a
stand-in for Go `mail.ParseAddress` that agrees with it on the
concrete From values used here: it accepts `Name <local@domain>` and a
bare `local@domain`, and rejects a bare address with an embedded
space such as `Mike Bland mbland@acm.org`. -/

def splitAtAngle : List Char → Option (List Char × List Char)
  | [] => none
  | c :: rest =>
    if [' ', '<'].isPrefixOf (c :: rest) then some ([], (c :: rest).drop 2)
    else
      match splitAtAngle rest with
      | none => none
      | some (pre, post) => some (c :: pre, post)

def parseAddrSimple (s : String) : Except String EmailAddress :=
  match splitAtAngle s.data with
  | none =>
    if s.data.contains '@' && !(s.data.contains ' ') then .ok ⟨"", s⟩
    else .error "mail: no angle-addr"
  | some (name, rest) =>
    match rest.reverse with
    | '>' :: addrRev =>
      let addr : String := ⟨addrRev.reverse⟩
      if addr.data.contains '@' && !(addr.data.contains ' ') then
        .ok ⟨⟨name⟩, addr⟩
      else .error "mail: no angle-addr"
    | _ => .error "mail: unclosed angle-addr"

def msgA : String := "From: a@b.c\r\nTo: t@u.v\r\n\r\nbodyA"

def hsA : Headers := [("From", "a@b.c"), ("To", "t@u.v")]

def msgBadFrom : String := "From: Mike Bland mbland@acm.org\r\n\r\nbodyB"

def hsBad : Headers := [("From", "Mike Bland mbland@acm.org")]

def envW : Env :=
  { parseMessage := fun s =>
      if s == msgA then .ok (hsA, "bodyA")
      else if s == msgBadFrom then .ok (hsBad, "bodyB")
      else .error "malformed mail",
    parseAddress := parseAddrSimple,
    getObject := fun _ key =>
      if key == "in/bad" then .error "S3 test error" else .ok msgA,
    sendEmail := fun _ _ _ => .ok "fwd-id",
    sendBounce := fun _ => .ok "bounce-id" }

def envB : Env := { envW with sendBounce := fun _ => .error "test error" }

def optsW : Options :=
  { bucketName := "bkt", incomingPfx := "in", emailDomainName := "dom.com",
    senderAddress := "s@x.y", forwardingAddress := "f@x.y",
    configurationSet := "cs" }

def passReceipt : SimpleEmailReceipt :=
  { recipients := ["r1@x.y", "r2@x.y"], spfVerdict := ⟨"PASS"⟩,
    dkimVerdict := ⟨"PASS"⟩, spamVerdict := ⟨"PASS"⟩,
    virusVerdict := ⟨"PASS"⟩, dmarcVerdict := ⟨"PASS"⟩, dmarcPolicy := "none" }

def recW (id : String) : SimpleEmailService := ⟨⟨id⟩, passReceipt⟩

def infoDmarc : SimpleEmailService :=
  ⟨⟨"deadbeef"⟩, { passReceipt with dmarcVerdict := ⟨"fail"⟩, dmarcPolicy := "reject" }⟩

def infoSpam : SimpleEmailService :=
  ⟨⟨"spam1"⟩, { passReceipt with spfVerdict := ⟨"fail"⟩ }⟩

def getenvW : String → String := fun n =>
  if n == "BUCKET_NAME" then "b" else if n == "SENDER_ADDRESS" then "s" else ""

/-! ## Helper lemmas about the header buffer -/

theorem strJoin_append (l1 l2 : List String) :
    strJoin (l1 ++ l2) = strJoin l1 ++ strJoin l2 := by
  induction l1 with
  | nil => simp [strJoin, String.empty_append]
  | cons s rest ih => simp [strJoin, ih, String.append_assoc]

theorem write_err (wf : Nat → Option String) (hb : HBState) (s : String)
    (c : String) (h : hb.err = some c) : write wf hb s = hb := by
  simp [write, h]

theorem foldl_write_err (wf : Nat → Option String) (f : String → String)
    (vs : List String) : ∀ hb : HBState, ∀ c, hb.err = some c →
      vs.foldl (fun st v => write wf st (f v)) hb = hb := by
  induction vs with
  | nil => intro hb c h; rfl
  | cons v rest ih =>
    intro hb c h
    rw [List.foldl_cons, write_err wf hb (f v) c h]
    exact ih hb c h

theorem foldl_write_ok (f : String → String) (vs : List String) :
    ∀ o k em, vs.foldl (fun st v => write neverFails st (f v)) ⟨o, k, none, em⟩ =
      ⟨o ++ strJoin (vs.map f), k + vs.length, none, em⟩ := by
  induction vs with
  | nil => intro o k em; simp [strJoin, String.append_empty]
  | cons v rest ih =>
    intro o k em
    rw [List.foldl_cons]
    have hw : write neverFails ⟨o, k, none, em⟩ (f v) =
        ⟨o ++ f v, k + 1, none, em⟩ := rfl
    rw [hw, ih]
    simp [strJoin, HBState.mk.injEq, String.append_assoc]
    omega

theorem writeHeader_ok (name : String) (values : List String) :
    ∀ o k em, writeHeader neverFails ⟨o, k, none, em⟩ name values =
      ⟨o ++ strJoin (values.map (fun v => spellName name ++ ": " ++ v ++ "\r\n")),
        k + values.length, none, em ++ [(spellName name, values)]⟩ := by
  intro o k em
  simp only [writeHeader]
  exact foldl_write_ok _ values o k (em ++ [(spellName name, values)])

theorem writeHeader_err (wf : Nat → Option String) (name : String)
    (values : List String) :
    ∀ o k c em, writeHeader wf ⟨o, k, some c, em⟩ name values =
      ⟨o, k, some c, em ++ [(spellName name, values)]⟩ := by
  intro o k c em
  simp only [writeHeader]
  exact foldl_write_err wf _ values ⟨o, k, some c, em ++ [(spellName name, values)]⟩ c rfl

theorem writeKeepHeaders_ok (hs : Headers) (names : List String) :
    ∀ o k em, writeKeepHeaders neverFails hs names ⟨o, k, none, em⟩ =
      ⟨o ++ strJoin (keptLineList hs names),
        k + (keptLineList hs names).length, none,
        em ++ keptEmittedList hs names⟩ := by
  induction names with
  | nil =>
    intro o k em
    simp [writeKeepHeaders, keptLineList, keptEmittedList, strJoin,
      String.append_empty]
  | cons h rest ih =>
    intro o k em
    rw [writeKeepHeaders]
    cases hv : headerValues hs h with
    | nil =>
      rw [ih]
      simp [keptLineList, keptEmittedList, hv, strJoin]
    | cons v vs =>
      show writeKeepHeaders neverFails hs rest
        (writeHeader neverFails ⟨o, k, none, em⟩ h (v :: vs)) = _
      rw [writeHeader_ok, ih]
      simp [keptLineList, keptEmittedList, hv, strJoin, strJoin_append,
        HBState.mk.injEq, String.append_assoc, List.append_assoc]
      omega

theorem writeKeepHeaders_err (wf : Nat → Option String) (hs : Headers)
    (names : List String) :
    ∀ o k c em, writeKeepHeaders wf hs names ⟨o, k, some c, em⟩ =
      ⟨o, k, some c, em ++ keptEmittedList hs names⟩ := by
  induction names with
  | nil => intro o k c em; simp [writeKeepHeaders, keptEmittedList]
  | cons h rest ih =>
    intro o k c em
    rw [writeKeepHeaders]
    cases hv : headerValues hs h with
    | nil =>
      rw [ih]
      simp [keptEmittedList, hv]
    | cons v vs =>
      show writeKeepHeaders wf hs rest
        (writeHeader wf ⟨o, k, some c, em⟩ h (v :: vs)) = _
      rw [writeHeader_err, ih]
      simp [keptEmittedList, hv, List.append_assoc]

theorem newFromAddress_ok (parse : String → Except String EmailAddress)
    (f sender : String) (addr : EmailAddress) (hf : parse f = .ok addr) :
    newFromAddress parse f sender = .ok (specFromValue addr sender) := by
  simp only [newFromAddress, hf, specFromValue]
  by_cases h : addr.name = ""
  · simp [h]
  · simp [h]

theorem writeFromAndReplyTo_ok (parse : String → Except String EmailAddress)
    (hs : Headers) (sender : String) (addr : EmailAddress)
    (hf : parse (headersGet hs "From") = .ok addr) :
    ∀ o k e0 em, writeFromAndReplyTo parse neverFails ⟨o, k, e0, em⟩ hs sender =
      ⟨o ++ ("From: " ++ specFromValue addr sender ++ "\r\n") ++
          ("Reply-To: " ++ specReplyToValue hs ++ "\r\n"),
        k + 1 + 1, none,
        em ++ [("From", [specFromValue addr sender]),
          ("Reply-To", [specReplyToValue hs])]⟩ := by
  intro o k e0 em
  simp only [writeFromAndReplyTo, newFromAddress_ok parse _ sender addr hf]
  have h1 : spellName "From" = "From" := rfl
  have h2 : spellName "Reply-To" = "Reply-To" := rfl
  rw [writeHeader_ok, writeHeader_ok]
  simp [h1, h2, strJoin, specReplyToValue, HBState.mk.injEq,
    String.append_assoc, String.append_empty, List.append_assoc]

theorem runUpdatedHeaders_ok (parse : String → Except String EmailAddress)
    (hs : Headers) (sender path : String) (addr : EmailAddress)
    (hf : parse (headersGet hs "From") = .ok addr) :
    runUpdatedHeaders parse neverFails ⟨hs, sender, path⟩ =
      ⟨strJoin (specHeaderLines addr hs sender path) ++ "\r\n",
        0 + 1 + 1 + (keptLineList hs keepHeaders).length + 1, none,
        ("From", [specFromValue addr sender]) ::
          ("Reply-To", [specReplyToValue hs]) :: keptEmittedList hs keepHeaders⟩ := by
  simp only [runUpdatedHeaders]
  rw [writeFromAndReplyTo_ok parse hs sender addr hf]
  rw [writeKeepHeaders_ok]
  have hx : ("\r\n" : String) ++ "\r\n" = "\r\n\r\n" := rfl
  simp [write, neverFails, specHeaderLines, strJoin, strJoin_append,
    HBState.mk.injEq, String.append_assoc, String.append_empty,
    String.empty_append, hx]

theorem WriteUpdatedHeaders_ok (parse : String → Except String EmailAddress)
    (hs : Headers) (sender path : String) (addr : EmailAddress)
    (hf : parse (headersGet hs "From") = .ok addr) :
    WriteUpdatedHeaders parse neverFails ⟨hs, sender, path⟩ =
      (⟨strJoin (specHeaderLines addr hs sender path) ++ "\r\n",
        0 + 1 + 1 + (keptLineList hs keepHeaders).length + 1, none,
        ("From", [specFromValue addr sender]) ::
          ("Reply-To", [specReplyToValue hs]) :: keptEmittedList hs keepHeaders⟩,
       .ok ()) := by
  simp only [WriteUpdatedHeaders]
  rw [runUpdatedHeaders_ok parse hs sender path addr hf]

theorem runUpdatedHeaders_errFrom (parse : String → Except String EmailAddress)
    (wf : Nat → Option String) (hs : Headers) (sender path : String)
    (e : String) (hf : parse (headersGet hs "From") = .error e) :
    runUpdatedHeaders parse wf ⟨hs, sender, path⟩ =
      ⟨"", 0,
        some ("couldn\x27t parse From address " ++ headersGet hs "From" ++
          ": " ++ e),
        keptEmittedList hs keepHeaders⟩ := by
  simp only [runUpdatedHeaders, writeFromAndReplyTo, newFromAddress, hf]
  rw [writeKeepHeaders_err]
  rw [write_err _ _ _ _ rfl]
  simp

theorem WriteUpdatedHeaders_errFrom (parse : String → Except String EmailAddress)
    (wf : Nat → Option String) (hs : Headers) (sender path : String)
    (e : String) (hf : parse (headersGet hs "From") = .error e) :
    WriteUpdatedHeaders parse wf ⟨hs, sender, path⟩ =
      (⟨"", 0,
        some ("couldn\x27t parse From address " ++ headersGet hs "From" ++
          ": " ++ e),
        keptEmittedList hs keepHeaders⟩,
       .error ("error updating email headers: " ++
         ("couldn\x27t parse From address " ++ headersGet hs "From" ++
           ": " ++ e))) := by
  simp only [WriteUpdatedHeaders]
  rw [runUpdatedHeaders_errFrom parse wf hs sender path e hf]

theorem updateMessage_ok (env : Env) (opts : Options) (msg key : String)
    (hs : Headers) (body : String) (addr : EmailAddress)
    (hm : env.parseMessage msg = .ok (hs, body))
    (ha : env.parseAddress (headersGet hs "From") = .ok addr) :
    updateMessage env opts msg key =
      .ok (strJoin (specHeaderLines addr hs opts.senderAddress
          (opts.bucketName ++ "/" ++ key)) ++ "\r\n" ++ body) := by
  simp only [updateMessage, hm]
  rw [WriteUpdatedHeaders_ok env.parseAddress hs _ _ addr ha]

theorem updateMessage_errFrom (env : Env) (opts : Options) (msg key : String)
    (hs : Headers) (body : String) (e : String)
    (hm : env.parseMessage msg = .ok (hs, body))
    (ha : env.parseAddress (headersGet hs "From") = .error e) :
    updateMessage env opts msg key =
      .error ("error updating email headers: " ++
        ("couldn\x27t parse From address " ++ headersGet hs "From" ++
          ": " ++ e)) := by
  simp only [updateMessage, hm]
  rw [WriteUpdatedHeaders_errFrom env.parseAddress neverFails hs _ _ e ha]

theorem keptEmittedList_names (hs : Headers) :
    ∀ names : List String, (keptEmittedList hs names).map Prod.fst =
      (names.filter (fun h => !(headerValues hs h).isEmpty)).map spellName := by
  intro names
  induction names with
  | nil => rfl
  | cons h rest ih =>
    cases hv : headerValues hs h with
    | nil => simp [keptEmittedList, hv, List.filter_cons, ih]
    | cons v vs => simp [keptEmittedList, hv, List.filter_cons, ih]

theorem headerValues_perm_isEmpty (hs hs2 : Headers) (h12 : hs.Perm hs2)
    (key : String) :
    (headerValues hs key).isEmpty = (headerValues hs2 key).isEmpty := by
  have hp : (headerValues hs key).Perm (headerValues hs2 key) :=
    (h12.filter _).map _
  rcases h1 : headerValues hs key with _ | ⟨v, vs⟩ <;>
    rcases h2 : headerValues hs2 key with _ | ⟨w, ws⟩ <;> simp_all

theorem specEmittedNames_perm (hs hs2 : Headers) (h12 : hs.Perm hs2) :
    specEmittedNames hs = specEmittedNames hs2 := by
  have hpt : ∀ key, (headerValues hs key).isEmpty =
      (headerValues hs2 key).isEmpty :=
    fun key => headerValues_perm_isEmpty hs hs2 h12 key
  simp [specEmittedNames, keepHeaders, List.filter_cons, hpt]

theorem keptLineList_shape (hs : Headers) :
    ∀ names l, l ∈ keptLineList hs names →
      ∃ n v, l = n ++ ": " ++ v ++ "\r\n" := by
  intro names
  induction names with
  | nil => intro l hl; simp [keptLineList] at hl
  | cons h rest ih =>
    intro l hl
    simp only [keptLineList, List.mem_append, List.mem_map] at hl
    rcases hl with ⟨v, hv, rfl⟩ | hl
    · exact ⟨spellName h, v, rfl⟩
    · exact ih l hl

theorem bounceIfDmarcFails_fires (env : Env) (opts : Options) (now : Nat)
    (info : SimpleEmailService)
    (hc : strToUpper info.receipt.dmarcVerdict.status = "FAIL" ∧
      strToUpper info.receipt.dmarcPolicy = "REJECT") :
    bounceIfDmarcFails env opts now info =
      (match env.sendBounce (bounceInputOf opts now info) with
        | .error e => .error ("DMARC bounce failed: " ++ e)
        | .ok id => .ok id,
       [bounceInputOf opts now info]) := by
  obtain ⟨hv, hp⟩ := hc
  cases hsb : env.sendBounce (bounceInputOf opts now info) with
  | error e =>
    simp [bounceInputOf] at hsb
    simp [bounceIfDmarcFails, hv, hp, bounceInputOf, hsb]
  | ok id =>
    simp [bounceInputOf] at hsb
    simp [bounceIfDmarcFails, hv, hp, bounceInputOf, hsb]

theorem bounceIfDmarcFails_skips (env : Env) (opts : Options) (now : Nat)
    (info : SimpleEmailService)
    (hnc : ¬(strToUpper info.receipt.dmarcVerdict.status = "FAIL" ∧
      strToUpper info.receipt.dmarcPolicy = "REJECT")) :
    bounceIfDmarcFails env opts now info = (.ok "", []) := by
  rcases not_and_or.mp hnc with h | h <;> simp [bounceIfDmarcFails, h]

theorem validateMessage_bounces (env : Env) (opts : Options) (now : Nat)
    (info : SimpleEmailService) :
    (validateMessage env opts now info).2 =
      (bounceIfDmarcFails env opts now info).2 := by
  simp only [validateMessage]
  rcases hbb : bounceIfDmarcFails env opts now info with ⟨r, bs⟩
  cases r with
  | error e => rfl
  | ok id =>
    show (if id != "" then _ else if isSpam info then _ else
      ((Except.ok (), bs) : Except String Unit × List SendBounceInput)).2 = bs
    split
    · rfl
    · split <;> rfl

/-! ## The claims -/

/-- Claim C1: the Validation Gate classifies every record as exactly one of
Bounced, Rejected, Passed.  Bounced iff the DMARC verdict is FAIL and the
DMARC policy is REJECT (case-insensitively, assuming the bounce call
succeeds with the nonempty message id the service returns), with exactly
one bounce issued; Rejected with reason "marked as spam, ignoring" iff the
bounce condition did not fire and any of the SPF, DKIM, Spam, Virus
verdicts is FAIL, with no bounce issued; Passed otherwise, with no bounce
issued. -/
theorem validation_gate_trichotomy (env : Env) (opts : Options) (now : Nat)
    (info : SimpleEmailService) :
    ((strToUpper info.receipt.dmarcVerdict.status = "FAIL" ∧
        strToUpper info.receipt.dmarcPolicy = "REJECT") →
      ∀ id, (bounceIfDmarcFails env opts now info).1 = .ok id → id ≠ "" →
        (validateMessage env opts now info).1 =
            .error ("DMARC bounced with bounce ID: " ++ id) ∧
          (validateMessage env opts now info).2.length = 1) ∧
    (¬(strToUpper info.receipt.dmarcVerdict.status = "FAIL" ∧
        strToUpper info.receipt.dmarcPolicy = "REJECT") → isSpam info = true →
      validateMessage env opts now info =
        (.error "marked as spam, ignoring", [])) ∧
    (¬(strToUpper info.receipt.dmarcVerdict.status = "FAIL" ∧
        strToUpper info.receipt.dmarcPolicy = "REJECT") → isSpam info = false →
      validateMessage env opts now info = (.ok (), [])) := by
  refine ⟨?_, ?_, ?_⟩
  · intro hc id hid hne
    have hfire := bounceIfDmarcFails_fires env opts now info hc
    cases hsb : env.sendBounce (bounceInputOf opts now info) with
    | error e =>
      rw [hsb] at hfire
      rw [hfire] at hid
      simp at hid
    | ok id2 =>
      rw [hsb] at hfire
      rw [hfire] at hid
      simp at hid
      subst hid
      simp only [validateMessage, hfire]
      simp [hne]
  · intro hnc hspam
    simp [validateMessage, bounceIfDmarcFails_skips env opts now info hnc,
      hspam]
  · intro hnc hspam
    simp [validateMessage, bounceIfDmarcFails_skips env opts now info hnc,
      hspam]

/-- Witness for C1: a record with DMARC verdict `fail` and policy `reject`
is bounced (one bounce request), and a record with only an SPF failure is
rejected as spam with no bounce. -/
theorem validation_gate_trichotomy_witness :
    ((validateMessage envW optsW 0 infoDmarc).1 =
        .error ("DMARC bounced with bounce ID: " ++ "bounce-id") ∧
      (validateMessage envW optsW 0 infoDmarc).2.length = 1) ∧
    validateMessage envW optsW 0 infoSpam =
      (.error "marked as spam, ignoring", []) :=
  ⟨(validation_gate_trichotomy envW optsW 0 infoDmarc).1
      ⟨by decide, by decide⟩ "bounce-id" rfl (by decide),
    (validation_gate_trichotomy envW optsW 0 infoSpam).2.1
      (by decide) (by decide)⟩

/-- Claim C2: for every record that passes validation (equivalently, for
every successful rewrite), the rewritten message's From header value is
namePrefix ++ (the original address with the first "@" replaced by
" at ") ++ " <" ++ configuredSender ++ ">", where namePrefix is empty when
the display name is empty and otherwise the display name followed by
" - ". -/
theorem from_header_rewrite (env : Env) (opts : Options) (msg key : String)
    (hs : Headers) (body : String) (addr : EmailAddress) (out : String)
    (hm : env.parseMessage msg = .ok (hs, body))
    (ha : env.parseAddress (headersGet hs "From") = .ok addr)
    (hu : updateMessage env opts msg key = .ok out) :
    ∃ rest, out =
      "From: " ++
        ((if addr.name = "" then "" else addr.name ++ " - ") ++
          replaceFirst addr.address "@" " at " ++ " <" ++
          opts.senderAddress ++ ">") ++ "\r\n" ++ rest := by
  have hok := updateMessage_ok env opts msg key hs body addr hm ha
  rw [hok] at hu
  simp only [Except.ok.injEq] at hu
  subst hu
  refine ⟨strJoin (("Reply-To: " ++ specReplyToValue hs ++ "\r\n") ::
      (keptLineList hs keepHeaders ++
        [origLinkHeaderPfx ++ (opts.bucketName ++ "/" ++ key) ++ "\r\n"])) ++
    "\r\n" ++ body, ?_⟩
  simp [specHeaderLines, strJoin, specFromValue, String.append_assoc]

/-- Witness for C2: the message with From `a@b.c` is rewritten so the From
header value is `a at b.c <s@x.y>`. -/
theorem from_header_rewrite_witness :
    ∃ rest,
      ("From: a at b.c <s@x.y>\r\nReply-To: a@b.c\r\nTo: t@u.v\r\nX-SES-Forwarder-Original: s3://bkt/k\r\n\r\nbodyA" : String) =
        "From: " ++
          ((if ("" : String) = "" then "" else "" ++ " - ") ++
            replaceFirst "a@b.c" "@" " at " ++ " <" ++
            optsW.senderAddress ++ ">") ++ "\r\n" ++ rest :=
  from_header_rewrite envW optsW msgA "k" hsA "bodyA" ⟨"", "a@b.c"⟩
    "From: a at b.c <s@x.y>\r\nReply-To: a@b.c\r\nTo: t@u.v\r\nX-SES-Forwarder-Original: s3://bkt/k\r\n\r\nbodyA"
    rfl rfl rfl

/-- Claim C3: the batch entry point errors iff the batch has zero records;
otherwise it maps every record independently to its own per-record
outcome (so one record's failure never affects the others) and returns
the stop-rule-set disposition with no error. -/
theorem batch_entry_contract (env : Env) (opts : Options) (now : Nat)
    (e : SimpleEmailEvent) :
    (e.records = [] →
      HandleEvent env opts now e =
        (.error "SES event contained no records", [])) ∧
    (e.records ≠ [] →
      HandleEvent env opts now e =
        (.ok .stopRuleSet, e.records.map (processMessage env opts now))) := by
  constructor
  · intro h
    simp [HandleEvent, h]
  · intro h
    cases hr : e.records with
    | nil => exact absurd hr h
    | cons a l => simp [HandleEvent, hr]

/-- Witness for C3: a two-record batch where the second record's store
fetch fails still yields the stop disposition with one success and one
failure outcome. -/
theorem batch_entry_contract_witness :
    HandleEvent envW optsW 0 ⟨[recW "good", recW "bad"]⟩ =
      (.ok .stopRuleSet,
        [recW "good", recW "bad"].map (processMessage envW optsW 0)) ∧
    [recW "good", recW "bad"].map (processMessage envW optsW 0) =
      [{ logs := ["forwarding message in/good",
            "successfully forwarded message in/good as fwd-id"],
         bounces := [],
         sends := ["From: a at b.c <s@x.y>\r\nReply-To: a@b.c\r\nTo: t@u.v\r\nX-SES-Forwarder-Original: s3://bkt/in/good\r\n\r\nbodyA"] },
       { logs := ["forwarding message in/bad",
            "failed to forward message in/bad: failed to get original message: S3 test error"],
         bounces := [], sends := [] }] :=
  ⟨(batch_entry_contract envW optsW 0 ⟨[recW "good", recW "bad"]⟩).2
      (by decide), rfl⟩

/-- Claim C4: the emitted header names are a pure function of which
allow-listed headers are present, in the fixed order From, Reply-To, To,
Cc, Bcc, Subject, MIME-Version (canonical spelling), Content-Type; the
byte output additionally ends with the provenance header; permuting the
input headers leaves the emitted order unchanged. -/
theorem fixed_header_order (parse : String → Except String EmailAddress)
    (hs hs2 : Headers) (sender path : String) (addr addr2 : EmailAddress)
    (hf : parse (headersGet hs "From") = .ok addr) :
    ((WriteUpdatedHeaders parse neverFails ⟨hs, sender, path⟩).1.emitted.map
        Prod.fst = specEmittedNames hs) ∧
    ((WriteUpdatedHeaders parse neverFails ⟨hs, sender, path⟩).1.out =
      strJoin (specHeaderLines addr hs sender path) ++ "\r\n") ∧
    (hs.Perm hs2 → parse (headersGet hs2 "From") = .ok addr2 →
      (WriteUpdatedHeaders parse neverFails ⟨hs2, sender, path⟩).1.emitted.map
          Prod.fst =
        (WriteUpdatedHeaders parse neverFails ⟨hs, sender, path⟩).1.emitted.map
          Prod.fst) := by
  refine ⟨?_, ?_, ?_⟩
  · rw [WriteUpdatedHeaders_ok parse hs sender path addr hf]
    simp [specEmittedNames, keptEmittedList_names]
  · rw [WriteUpdatedHeaders_ok parse hs sender path addr hf]
  · intro hperm hf2
    rw [WriteUpdatedHeaders_ok parse hs sender path addr hf,
      WriteUpdatedHeaders_ok parse hs2 sender path addr2 hf2]
    have hnames := specEmittedNames_perm hs hs2 hperm
    simp only [specEmittedNames, List.cons_append, List.nil_append,
      List.cons.injEq, true_and] at hnames
    simp [keptEmittedList_names, hnames]

/-- Witness for C4: two permuted header lists produce the same emitted
name order From, Reply-To, To. -/
theorem fixed_header_order_witness :
    ((WriteUpdatedHeaders parseAddrSimple neverFails
        ⟨[("To", "t@u.v"), ("From", "a@b.c")], "s@x.y", "p"⟩).1.emitted.map
          Prod.fst = specEmittedNames [("To", "t@u.v"), ("From", "a@b.c")]) ∧
    ((WriteUpdatedHeaders parseAddrSimple neverFails
        ⟨[("From", "a@b.c"), ("To", "t@u.v")], "s@x.y", "p"⟩).1.emitted.map
          Prod.fst =
      (WriteUpdatedHeaders parseAddrSimple neverFails
        ⟨[("To", "t@u.v"), ("From", "a@b.c")], "s@x.y", "p"⟩).1.emitted.map
          Prod.fst) ∧
    specEmittedNames [("To", "t@u.v"), ("From", "a@b.c")] =
      ["From", "Reply-To", "To"] :=
  ⟨(fixed_header_order parseAddrSimple [("To", "t@u.v"), ("From", "a@b.c")]
      [("From", "a@b.c"), ("To", "t@u.v")] "s@x.y" "p" ⟨"", "a@b.c"⟩
      ⟨"", "a@b.c"⟩ rfl).1,
    (fixed_header_order parseAddrSimple [("To", "t@u.v"), ("From", "a@b.c")]
      [("From", "a@b.c"), ("To", "t@u.v")] "s@x.y" "p" ⟨"", "a@b.c"⟩
      ⟨"", "a@b.c"⟩ rfl).2.2 (by decide) rfl,
    rfl⟩

/-- Counterexample for C5 as stated: the input has a Reply-To header (with
empty value), but the rewriter does not pass its value through unchanged:
it emits the From value `a@b.c` instead of the empty value. -/
theorem reply_to_passthrough_counterexample :
    (("Reply-To", "") ∈ ([("From", "a@b.c"), ("Reply-To", "")] : Headers)) ∧
    (WriteUpdatedHeaders parseAddrSimple neverFails
        ⟨[("From", "a@b.c"), ("Reply-To", "")], "s@x.y", "b/k"⟩).1.emitted =
      [("From", ["a at b.c <s@x.y>"]), ("Reply-To", ["a@b.c"])] ∧
    ¬(("a@b.c" : String) = "") :=
  ⟨by decide, rfl, by decide⟩

/-- Claim C5 (amended): the rewriter distinguishes Reply-To by its parsed
value, not by header presence: when the original Reply-To value is empty
(header absent, or present with an empty value), the emitted Reply-To is
the original, unmodified From value; when it is non-empty, it is passed
through unchanged. -/
theorem reply_to_amended (parse : String → Except String EmailAddress)
    (hs : Headers) (sender path : String) (addr : EmailAddress)
    (hf : parse (headersGet hs "From") = .ok addr) :
    (headersGet hs "Reply-To" = "" →
      (WriteUpdatedHeaders parse neverFails ⟨hs, sender, path⟩).1.emitted.get? 1 =
        some ("Reply-To", [headersGet hs "From"])) ∧
    (headersGet hs "Reply-To" ≠ "" →
      (WriteUpdatedHeaders parse neverFails ⟨hs, sender, path⟩).1.emitted.get? 1 =
        some ("Reply-To", [headersGet hs "Reply-To"])) := by
  constructor <;> intro h <;>
    rw [WriteUpdatedHeaders_ok parse hs sender path addr hf] <;>
    simp [specReplyToValue, h]

/-- Witness for C5 (amended): with no Reply-To header the emitted Reply-To
value is the original From value. -/
theorem reply_to_amended_witness :
    (WriteUpdatedHeaders parseAddrSimple neverFails
        ⟨[("From", "a@b.c")], "s@x.y", "p"⟩).1.emitted.get? 1 =
      some ("Reply-To", [headersGet [("From", "a@b.c")] "From"]) :=
  (reply_to_amended parseAddrSimple [("From", "a@b.c")] "s@x.y" "p"
    ⟨"", "a@b.c"⟩ rfl).1 rfl

/-- Claim C6: a successful rewrite consists of the emitted header block
(lines of the shape `Name: value` followed by CRLF), exactly one blank
line, then the original body bytes unmodified. -/
theorem rewrite_frame (env : Env) (opts : Options) (msg key : String)
    (hs : Headers) (body : String) (addr : EmailAddress) (out : String)
    (hm : env.parseMessage msg = .ok (hs, body))
    (ha : env.parseAddress (headersGet hs "From") = .ok addr)
    (hu : updateMessage env opts msg key = .ok out) :
    (∀ l ∈ specHeaderLines addr hs opts.senderAddress
        (opts.bucketName ++ "/" ++ key),
      ∃ n v, l = n ++ ": " ++ v ++ "\r\n") ∧
    out = strJoin (specHeaderLines addr hs opts.senderAddress
        (opts.bucketName ++ "/" ++ key)) ++ "\r\n" ++ body := by
  constructor
  · intro l hl
    simp only [specHeaderLines, List.mem_cons, List.mem_append,
      List.mem_singleton] at hl
    rcases hl with rfl | rfl | hl | rfl | hl0
    · exact ⟨"From", specFromValue addr opts.senderAddress, rfl⟩
    · exact ⟨"Reply-To", specReplyToValue hs, rfl⟩
    · exact keptLineList_shape hs keepHeaders l hl
    · exact ⟨"X-SES-Forwarder-Original",
        "s3://" ++ (opts.bucketName ++ "/" ++ key), rfl⟩
    · exact absurd hl0 (List.not_mem_nil l)
  · have hok := updateMessage_ok env opts msg key hs body addr hm ha
    rw [hok] at hu
    simp only [Except.ok.injEq] at hu
    exact hu.symm

/-- Witness for C6: the concrete rewritten message is the header block,
one blank line, then the body `bodyA`. -/
theorem rewrite_frame_witness :
    ("From: a at b.c <s@x.y>\r\nReply-To: a@b.c\r\nTo: t@u.v\r\nX-SES-Forwarder-Original: s3://bkt/k\r\n\r\nbodyA" : String) =
      strJoin (specHeaderLines ⟨"", "a@b.c"⟩ hsA optsW.senderAddress
        (optsW.bucketName ++ "/" ++ "k")) ++ "\r\n" ++ "bodyA" :=
  (rewrite_frame envW optsW msgA "k" hsA "bodyA" ⟨"", "a@b.c"⟩
    "From: a at b.c <s@x.y>\r\nReply-To: a@b.c\r\nTo: t@u.v\r\nX-SES-Forwarder-Original: s3://bkt/k\r\n\r\nbodyA"
    rfl rfl rfl).2

/-- Claim C7: when the From value cannot be parsed, the whole rewrite
fails with an error naming the offending value, and no output bytes are
produced. -/
theorem from_parse_failure (env : Env) (opts : Options) (msg key : String)
    (hs : Headers) (body : String) (e : String)
    (hm : env.parseMessage msg = .ok (hs, body))
    (ha : env.parseAddress (headersGet hs "From") = .error e) :
    updateMessage env opts msg key =
      .error ("error updating email headers: " ++
        ("couldn\x27t parse From address " ++ headersGet hs "From" ++
          ": " ++ e)) ∧
    (runUpdatedHeaders env.parseAddress neverFails
        ⟨hs, opts.senderAddress, opts.bucketName ++ "/" ++ key⟩).out = "" := by
  refine ⟨updateMessage_errFrom env opts msg key hs body e hm ha, ?_⟩
  rw [runUpdatedHeaders_errFrom env.parseAddress neverFails hs _ _ e ha]

/-- Witness for C7: the From value `Mike Bland mbland@acm.org` (no angle
brackets) aborts the rewrite with the parse error and writes nothing. -/
theorem from_parse_failure_witness :
    updateMessage envW optsW msgBadFrom "k" =
      .error ("error updating email headers: " ++
        ("couldn\x27t parse From address " ++ headersGet hsBad "From" ++
          ": " ++ "mail: no angle-addr")) ∧
    (runUpdatedHeaders envW.parseAddress neverFails
        ⟨hsBad, optsW.senderAddress, optsW.bucketName ++ "/" ++ "k"⟩).out = "" :=
  from_parse_failure envW optsW msgBadFrom "k" hsBad "bodyB"
    "mail: no angle-addr" rfl rfl

/-- Claim C8: when the DMARC bounce condition fires, the issued bounce
request has one content-rejected entry per recipient, the
`mailer-daemon@domain` bounce sender, the `dns; domain` reporting agent,
the clock time truncated to whole seconds, and the fixed DMARC
explanation; if the bounce call fails, the record fails with
"DMARC bounce failed: cause", no forwarding is attempted, and the batch
still succeeds. -/
theorem dmarc_bounce_request (env : Env) (opts : Options) (now : Nat)
    (info : SimpleEmailService)
    (hc : strToUpper info.receipt.dmarcVerdict.status = "FAIL" ∧
      strToUpper info.receipt.dmarcPolicy = "REJECT") :
    (validateMessage env opts now info).2 =
      [{ bounceSender := "mailer-daemon@" ++ opts.emailDomainName,
         originalMessageId := info.mail.messageID,
         reportingMta := "dns; " ++ opts.emailDomainName,
         arrivalDate := truncateSeconds now,
         explanation := "Unauthenticated email is not accepted due to " ++
           "the sending domain\x27s DMARC policy.",
         bouncedRecipientInfoList := info.receipt.recipients.map
           (fun r =>
              { recipient := r, bounceType := bounceTypeContentRejected }) }] ∧
    (∀ cause, env.sendBounce (bounceInputOf opts now info) = .error cause →
      processMessage env opts now info =
        { logs := ["forwarding message " ++
            (opts.incomingPfx ++ "/" ++ info.mail.messageID),
            "failed to forward message " ++
              (opts.incomingPfx ++ "/" ++ info.mail.messageID) ++ ": " ++
              ("DMARC bounce failed: " ++ cause)],
          bounces := [bounceInputOf opts now info], sends := [] }) ∧
    (∀ ev : SimpleEmailEvent, ev.records ≠ [] →
      (HandleEvent env opts now ev).1 = .ok .stopRuleSet) := by
  refine ⟨?_, ?_, ?_⟩
  · rw [validateMessage_bounces env opts now info,
      bounceIfDmarcFails_fires env opts now info hc]
    simp [bounceInputOf]
  · intro cause hsb
    have hfire := bounceIfDmarcFails_fires env opts now info hc
    rw [hsb] at hfire
    simp only [processMessage, validateMessage, hfire]
  · intro ev hne
    cases hr : ev.records with
    | nil => exact absurd hr hne
    | cons a l => simp [HandleEvent, hr]

/-- Witness for C8: concrete DMARC-failing record, bounce client failing
with `test error`. -/
theorem dmarc_bounce_request_witness :
    (validateMessage envB optsW 0 infoDmarc).2 =
      [{ bounceSender := "mailer-daemon@dom.com",
         originalMessageId := "deadbeef",
         reportingMta := "dns; dom.com",
         arrivalDate := 0,
         explanation := "Unauthenticated email is not accepted due to the sending domain\x27s DMARC policy.",
         bouncedRecipientInfoList := [⟨"r1@x.y", "ContentRejected"⟩,
           ⟨"r2@x.y", "ContentRejected"⟩] }] ∧
    processMessage envB optsW 0 infoDmarc =
      { logs := ["forwarding message in/deadbeef",
          "failed to forward message in/deadbeef: DMARC bounce failed: test error"],
        bounces := [bounceInputOf optsW 0 infoDmarc], sends := [] } :=
  ⟨(dmarc_bounce_request envB optsW 0 infoDmarc ⟨by decide, by decide⟩).1,
    (dmarc_bounce_request envB optsW 0 infoDmarc ⟨by decide, by decide⟩).2.1
      "test error" rfl⟩

/-- Claim C9: the option loader succeeds iff every required environment
name resolves to a non-empty value; on failure it returns the single list
of all missing names (in declaration order); on success each Options
field holds the value of its environment name. -/
theorem options_loader_contract (getenv : String → String) :
    (optionNames.filter (fun n => getenv n == "") = [] →
      options getenv = .ok
        { bucketName := getenv "BUCKET_NAME",
          incomingPfx := getenv "INCOMING_PREFIX",
          emailDomainName := "",
          senderAddress := getenv "SENDER_ADDRESS",
          forwardingAddress := getenv "FORWARDING_ADDRESS",
          configurationSet := getenv "CONFIGURATION_SET" }) ∧
    (optionNames.filter (fun n => getenv n == "") ≠ [] →
      options getenv = .error (optionNames.filter (fun n => getenv n == ""))) := by
  by_cases h1 : getenv "BUCKET_NAME" = "" <;>
  by_cases h2 : getenv "INCOMING_PREFIX" = "" <;>
  by_cases h3 : getenv "SENDER_ADDRESS" = "" <;>
  by_cases h4 : getenv "FORWARDING_ADDRESS" = "" <;>
  by_cases h5 : getenv "CONFIGURATION_SET" = "" <;>
  simp [options, assign, optionNames, h1, h2, h3, h4, h5]

/-- Witness for C9: an environment defining only BUCKET_NAME and
SENDER_ADDRESS fails with the three missing names reported together. -/
theorem options_loader_contract_witness :
    options getenvW =
      .error ["INCOMING_PREFIX", "FORWARDING_ADDRESS", "CONFIGURATION_SET"] :=
  (options_loader_contract getenvW).2 (by decide)

/-- Claim C10: the header buffer's first error is sticky: after a failed
write every further write leaves the buffer (its output in particular)
unchanged, and WriteUpdatedHeaders wraps that first failure as
"error updating email headers: cause". -/
theorem header_buffer_sticky_error (wf : Nat → Option String) :
    (∀ hb : HBState, ∀ c, hb.err = some c → ∀ ss : List String,
        ss.foldl (write wf) hb = hb) ∧
    (∀ parse input c,
        (WriteUpdatedHeaders parse wf input).1.err = some c →
        (WriteUpdatedHeaders parse wf input).2 =
          .error ("error updating email headers: " ++ c)) := by
  constructor
  · intro hb c h ss
    induction ss with
    | nil => rfl
    | cons s rest ih =>
      rw [List.foldl_cons, write_err wf hb s c h]
      exact ih
  · intro parse input c h
    simp only [WriteUpdatedHeaders] at h ⊢
    cases hx : (runUpdatedHeaders parse wf input).err with
    | none => simp [hx] at h
    | some e =>
      simp only [hx] at h ⊢
      simp at h
      rw [h]

/-- Witness for C10: a buffer that already failed with `boom` absorbs
two more writes unchanged, and a writer failing with `disk full` on its
first call makes WriteUpdatedHeaders report that cause. -/
theorem header_buffer_sticky_error_witness :
    (["a", "b"].foldl (write (fun _ => some "disk full"))
        ⟨"x", 1, some "boom", []⟩ = ⟨"x", 1, some "boom", []⟩) ∧
    (WriteUpdatedHeaders parseAddrSimple (fun _ => some "disk full")
        ⟨[("From", "a@b.c")], "s@x.y", "p"⟩).2 =
      .error ("error updating email headers: " ++ "disk full") :=
  ⟨(header_buffer_sticky_error (fun _ => some "disk full")).1
      ⟨"x", 1, some "boom", []⟩ "boom" rfl ["a", "b"],
    (header_buffer_sticky_error (fun _ => some "disk full")).2
      parseAddrSimple ⟨[("From", "a@b.c")], "s@x.y", "p"⟩ "disk full" rfl⟩

end SesForwarder
